import Mathlib

/-!
Shallow embedding of the core of the LLM reliability platform
(`platform/src/reliability_platform`): the invariant validation engine
(`domain/models/invariant.py`, `application/services/validation/validation_service.py`),
the PII-leakage invariant (`domain/invariants/safety/pii.py`) and the drift
detection engine (`domain/models/drift.py`,
`application/services/analysis/drift_service.py`).

Python strings are modelled as `List Char`, floats as `ℚ`, UUIDs as opaque
identifiers (`Nat` for capture ids, `List Char` for request ids, matching the
`str(uuid)` use sites).  External effectful collaborators (the MD5 hash, the
wall clock, `numpy` random sampling, the embedding service, `math.log` inside
`scipy.stats.entropy`, `scipy.spatial.distance.cosine`) are passed in as
explicit function parameters, so every definition stays executable.
-/

/-- Python `str`, modelled as a list of characters. -/
abbrev Str := List Char

/-! ## `domain/models/validation.py` -/

/-- `Severity` enum from `validation.py`. -/
inductive Severity where
  | critical | high | medium | low | info
deriving DecidableEq, Repr

/-- `ValidationStatus` enum from `validation.py`. -/
inductive ValidationStatus where
  | passed | failed | skipped | error
deriving DecidableEq, Repr

/-- `ValidationEvidence` dataclass from `validation.py` (the metadata bag is
not modelled; the claims never inspect it). -/
structure ValidationEvidence where
  description : Str
  extracted_text : Option Str := none
  confidence_score : Option ℚ := none
deriving DecidableEq, Repr

/-- `ValidationResult` dataclass from `validation.py` (the random `id` and the
wall-clock `timestamp` are not modelled). -/
structure ValidationResult where
  invariant_id : Str := []
  capture_event_id : Nat := 0
  status : ValidationStatus := .passed
  severity : Severity := .medium
  message : Str := []
  evidence : List ValidationEvidence := []
  execution_time_ms : Nat := 0
deriving DecidableEq, Repr

/-- `ValidationResult.passed` property. -/
def ValidationResult.passed (r : ValidationResult) : Bool :=
  r.status == ValidationStatus.passed

/-! ## `domain/models/capture.py` (the fields the two engines read) -/

/-- `RequestContext` dataclass (fields used by `should_apply`). -/
structure RequestContext where
  user_id : Option Str := none
  ab_variant : Option Str := none
  application_name : Str := "default".toList
deriving DecidableEq, Repr

/-- `LLMRequest` (fields used by the engines; `id` is the UUID, kept as the
string `str(request.id)` since that is the only way it is consumed). -/
structure LLMRequest where
  id : Str
  context : RequestContext := {}
deriving DecidableEq, Repr

/-- `LLMResponse` (fields used by the engines). -/
structure LLMResponse where
  text : Str := []
deriving DecidableEq, Repr

/-- `CaptureEvent` dataclass from `capture.py`. -/
structure CaptureEvent where
  id : Nat := 0
  request : LLMRequest
  response : LLMResponse := {}
deriving DecidableEq, Repr

/-! ## `domain/models/invariant.py` -/

/-- `InvariantScope` enum. -/
inductive InvariantScope where
  | all_requests | specific_users | specific_applications | ab_variant | sample_based
deriving DecidableEq, Repr

/-- The entries of the `scope_filters` dict that `should_apply` reads
(`.get("applications", [])`, `.get("user_ids", [])`, `.get("variant")`). -/
structure ScopeFilters where
  applications : List Str := []
  user_ids : List (Option Str) := []
  variant : Option Str := none
deriving DecidableEq, Repr

/-- `InvariantConfig` dataclass (the `custom_params` bag is not modelled). -/
structure InvariantConfig where
  enabled : Bool := true
  severity : Severity := .medium
  scope : InvariantScope := .all_requests
  scope_filters : ScopeFilters := {}
  sampling_rate : ℚ := 1
  timeout_ms : Nat := 5000
  retry_on_error : Bool := true
  max_retries : Nat := 2
deriving DecidableEq, Repr

/-- `InvariantContext` dataclass (fresh `execution_id` and metadata bag are
not modelled; they are never read by the code under study). -/
structure InvariantContext where
  capture_event : CaptureEvent
deriving DecidableEq, Repr

/-- `InvariantContext.request` property. -/
def InvariantContext.request (c : InvariantContext) : LLMRequest :=
  c.capture_event.request

/-- `InvariantContext.response` property. -/
def InvariantContext.response (c : InvariantContext) : LLMResponse :=
  c.capture_event.response

/-- Outcome of one awaited `asyncio.wait_for(invariant.validate(context), …)`
call inside `ValidationService._execute_single_invariant`: a returned
`ValidationResult`, an `asyncio.TimeoutError`, or another exception
(carried as its message string). -/
inductive ValidateOutcome where
  | ok (r : ValidationResult)
  | timeout
  | exc (e : Str)
deriving DecidableEq, Repr

/-- `AbstractInvariant`: the capability contract `{metadata, config, validate}`.
`id` is `metadata.id`; `behavior n` is the outcome of the `n`-th attempted
`validate` call for the context at hand (the concrete invariants are pure, so
one outcome function per context is faithful). -/
structure AbstractInvariant where
  id : Str
  config : InvariantConfig := {}
  behavior : Nat → ValidateOutcome

/-- `AbstractInvariant.should_apply` from `invariant.py` (lines 102-134).
`md5int s` models `int(hashlib.md5(s.encode()).hexdigest(), 16)`, a pure
function of the string `s`. -/
def AbstractInvariant.should_apply (inv : AbstractInvariant) (md5int : Str → Nat)
    (context : InvariantContext) : Bool :=
  if !inv.config.enabled then
    false
  else if inv.config.scope == InvariantScope.specific_applications
      && !(inv.config.scope_filters.applications.contains
            context.request.context.application_name) then
    false
  else if inv.config.scope == InvariantScope.specific_users
      && !(inv.config.scope_filters.user_ids.contains
            context.request.context.user_id) then
    false
  else if inv.config.scope == InvariantScope.ab_variant
      && !(context.request.context.ab_variant == inv.config.scope_filters.variant) then
    false
  else if inv.config.sampling_rate < 1
      && ((((md5int context.request.id % 100 : Nat) : ℚ)) / 100 > inv.config.sampling_rate) then
    false
  else
    true

/-- Error raised by `InvariantRegistry.register` on a duplicate id
(`ValueError(f"Invariant {id} already registered")`; the spec calls this
condition `DuplicateInvariant`). -/
inductive RegistryError where
  | duplicateInvariant (id : Str)

/-- `InvariantRegistry`: the `_invariants` dict, modelled as an
insertion-ordered association list (Python dicts preserve insertion order). -/
structure InvariantRegistry where
  _invariants : List (Str × AbstractInvariant) := []

/-- `InvariantRegistry.get`. -/
def InvariantRegistry.get (reg : InvariantRegistry) (invariant_id : Str) :
    Option AbstractInvariant :=
  (reg._invariants.find? (fun p => p.1 == invariant_id)).map (·.2)

/-- `InvariantRegistry.register`: raises on duplicate id, otherwise inserts at
the end of the dict. -/
def InvariantRegistry.register (reg : InvariantRegistry) (invariant : AbstractInvariant) :
    Except RegistryError InvariantRegistry :=
  if reg._invariants.any (fun p => p.1 == invariant.id) then
    .error (.duplicateInvariant invariant.id)
  else
    .ok ⟨reg._invariants ++ [(invariant.id, invariant)]⟩

/-- `InvariantRegistry.unregister`: deletes the key if present, else no-op. -/
def InvariantRegistry.unregister (reg : InvariantRegistry) (invariant_id : Str) :
    InvariantRegistry :=
  ⟨reg._invariants.filter (fun p => !(p.1 == invariant_id))⟩

/-- `InvariantRegistry.get_enabled`. -/
def InvariantRegistry.get_enabled (reg : InvariantRegistry) : List AbstractInvariant :=
  (reg._invariants.map (·.2)).filter (fun inv => inv.config.enabled)

/-! ## `application/services/validation/validation_service.py` -/

/-- The ERROR result synthesized when a `validate` attempt exhausts its
retries on `asyncio.TimeoutError` (validation_service.py lines 118-125). -/
def timeoutErrorResult (invariant : AbstractInvariant) (context : InvariantContext)
    (timeout_ms : Nat) : ValidationResult :=
  { invariant_id := invariant.id
    capture_event_id := context.capture_event.id
    status := .error
    severity := invariant.config.severity
    message := "Execution timeout after ".toList ++ (toString timeout_ms).toList ++ "ms".toList }

/-- The retry loop of `_execute_single_invariant` (lines 106-135): `attempt` is
the Python loop variable, `fuel = max_retries - attempt` counts the retries
still available, so `fuel = 0` is exactly the Python guard
`attempt >= max_retries`.  Returns the loop's outcome (a result, or the
re-raised exception) together with the number of `validate` attempts made. -/
def attemptLoop (invariant : AbstractInvariant) (context : InvariantContext)
    (timeout_ms : Nat) : Nat → Nat → Except Str ValidationResult × Nat
  | attempt, 0 =>
    match invariant.behavior attempt with
    | .ok r => (.ok r, attempt + 1)
    | .timeout => (.ok (timeoutErrorResult invariant context timeout_ms), attempt + 1)
    | .exc e => (.error e, attempt + 1)
  | attempt, fuel + 1 =>
    match invariant.behavior attempt with
    | .ok r => (.ok r, attempt + 1)
    | .timeout => attemptLoop invariant context timeout_ms (attempt + 1) fuel
    | .exc _ => attemptLoop invariant context timeout_ms (attempt + 1) fuel

/-- `ValidationService._execute_single_invariant` (lines 100-135).
`default_timeout_ms` is the service's `default_timeout_ms`; the Python
`invariant.config.timeout_ms or self.default_timeout_ms` falls back when the
configured value is the falsy `0`. -/
def _execute_single_invariant (default_timeout_ms : Nat) (invariant : AbstractInvariant)
    (context : InvariantContext) : Except Str ValidationResult × Nat :=
  let timeout_ms := if invariant.config.timeout_ms == 0 then default_timeout_ms
    else invariant.config.timeout_ms
  let max_retries := if invariant.config.retry_on_error then invariant.config.max_retries else 0
  attemptLoop invariant context timeout_ms 0 max_retries

/-- The ERROR result synthesized by `_execute_invariants_parallel` when
`asyncio.gather(..., return_exceptions=True)` hands back an exception
(lines 81-95). -/
def executionErrorResult (inv : AbstractInvariant) (context : InvariantContext)
    (e : Str) : ValidationResult :=
  { invariant_id := inv.id
    capture_event_id := context.capture_event.id
    status := .error
    severity := inv.config.severity
    message := "Execution error: ".toList ++ e }

/-- `ValidationService._execute_invariants_parallel` (lines 73-98):
`gather(..., return_exceptions=True)` yields one outcome per task in task
order; `zip(invariants, results)` then degrades each exception to an ERROR
result. -/
def _execute_invariants_parallel (default_timeout_ms : Nat)
    (invariants : List AbstractInvariant) (context : InvariantContext) :
    List ValidationResult :=
  invariants.map (fun inv =>
    match (_execute_single_invariant default_timeout_ms inv context).1 with
    | .ok r => r
    | .error e => executionErrorResult inv context e)

/-- Python truthiness of the `Optional[List[str]]` argument: `if invariant_ids:`
is false for `None` and for the empty list. -/
def listTruthy (ids : Option (List Str)) : Bool :=
  match ids with
  | some l => !l.isEmpty
  | none => false

/-- The invariant-selection step of `validate_capture` (lines 42-51). -/
def resolveInvariants (reg : InvariantRegistry) (invariant_ids : Option (List Str)) :
    List AbstractInvariant :=
  if listTruthy invariant_ids then
    ((invariant_ids.getD []).filterMap reg.get)
  else
    reg.get_enabled

/-- The applicable set: selection followed by the `should_apply` filter
(line 54). -/
def applicableSet (reg : InvariantRegistry) (md5int : Str → Nat)
    (capture_event : CaptureEvent) (invariant_ids : Option (List Str)) :
    List AbstractInvariant :=
  let context : InvariantContext := ⟨capture_event⟩
  (resolveInvariants reg invariant_ids).filter
    (fun inv => inv.should_apply md5int context)

/-- `ValidationService.validate_capture` (lines 33-71). -/
def validate_capture (reg : InvariantRegistry) (md5int : Str → Nat)
    (default_timeout_ms : Nat) (capture_event : CaptureEvent)
    (invariant_ids : Option (List Str)) : List ValidationResult :=
  let context : InvariantContext := ⟨capture_event⟩
  _execute_invariants_parallel default_timeout_ms
    (applicableSet reg md5int capture_event invariant_ids) context

/-! ## `domain/invariants/safety/pii.py`

The five `PATTERNS` regexes are modelled as hand-written scanners
implementing Python `re.findall` semantics (leftmost, non-overlapping
matches, greedy quantifiers with backtracking, `\b` word boundaries,
single-group patterns reporting the group's content).  `\w` is modelled
over its ASCII fragment `[A-Za-z0-9_]`, `\s` by `Char.isWhitespace`. -/

/-- Python regex `\w` (ASCII fragment). -/
def isWordChar (c : Char) : Bool := c.isAlphanum || c == '_'

/-- `isWordChar` lifted to the character before/after a position (`none` at
either end of the text, where `\b` treats the outside as a non-word char). -/
def isWordOpt : Option Char → Bool
  | some c => isWordChar c
  | none => false

/-- A position-level matcher: given the previous character and the remaining
text, either `none` (no match here) or `some (reported, newPrev, remainder)`:
the string `re.findall` reports, the character preceding the continuation
point, and the text after the full match. -/
abbrev MatchAt := Option Char → Str → Option (Str × Option Char × Str)

/-- `re.findall` scanning: try each position left to right; on a match,
report it and resume after it (all five patterns only produce non-empty full
matches, so the progress guard in the first branch always holds).  The fuel
argument makes the recursion structural; `scanWith` is always entered with
`fuel = text.length`, which suffices since every step consumes at least one
character. -/
def scanWith (matchAt : MatchAt) : Nat → Option Char → Str → List Str
  | 0, _, _ => []
  | _, _, [] => []
  | fuel + 1, prev, c :: rest =>
    match matchAt prev (c :: rest) with
    | some (rep, prev', rem) =>
      if rem.length < rest.length + 1 then rep :: scanWith matchAt fuel prev' rem
      else scanWith matchAt fuel (some c) rest
    | none => scanWith matchAt fuel (some c) rest


/-- Length of the maximal digit prefix of `t`. -/
def digitRun : Str → Nat
  | [] => 0
  | c :: rest => if c.isDigit then digitRun rest + 1 else 0

/-- Length of the maximal prefix of `t` whose characters satisfy `p`. -/
def classRun (p : Char → Bool) : Str → Nat
  | [] => 0
  | c :: rest => if p c then classRun p rest + 1 else 0

/-- First `some` value of `f` over a list of candidates (backtracking order). -/
def firstSome (f : Nat → Option α) : List Nat → Option α
  | [] => none
  | n :: ns =>
    match f n with
    | some x => some x
    | none => firstSome f ns

/-- The shape of a full match of the SSN pattern `\b\d{3}-\d{2}-\d{4}\b`. -/
def ssnShape : Str → Bool
  | [a, b, c, d, e, f, g, h, i, j, k] =>
    a.isDigit && b.isDigit && c.isDigit && d == '-' && e.isDigit && f.isDigit
      && g == '-' && h.isDigit && i.isDigit && j.isDigit && k.isDigit
  | _ => false

/-- Matcher for the `ssn` pattern `\b\d{3}-\d{2}-\d{4}\b` (fixed width 11;
both anchors reduce to "adjacent character is not a word char" because the
match starts and ends with a digit). -/
def ssnMatchAt : MatchAt := fun prev t =>
  let cand := t.take 11
  if !(isWordOpt prev) && ssnShape cand && !(isWordOpt (t.drop 11).head?) then
    some (cand, cand.getLast?, t.drop 11)
  else
    none

/-- `re.findall` for the `ssn` pattern. -/
def ssnFindall (t : Str) : List Str := scanWith ssnMatchAt t.length none t

/-- Matcher for the `ip_address` pattern `\b\d{1,3}\.\d{1,3}\.\d{1,3}\.\d{1,3}\b`.
Each greedy `\d{1,3}` is deterministic: a shorter octet leaves a digit where
`\.` (or the final `\b`) is required, so backtracking cannot help. -/
def ipMatchAt : MatchAt := fun prev t =>
  if isWordOpt prev then none else
  let r1 := digitRun t
  if r1 == 0 || r1 > 3 then none else
  let t1 := t.drop r1
  match t1 with
  | '.' :: t1' =>
    let r2 := digitRun t1'
    if r2 == 0 || r2 > 3 then none else
    match t1'.drop r2 with
    | '.' :: t2' =>
      let r3 := digitRun t2'
      if r3 == 0 || r3 > 3 then none else
      match t2'.drop r3 with
      | '.' :: t3' =>
        let r4 := digitRun t3'
        if r4 == 0 || r4 > 3 then none else
        let rem := t3'.drop r4
        if isWordOpt rem.head? then none else
        let m := t.take (r1 + 1 + r2 + 1 + r3 + 1 + r4)
        some (m, m.getLast?, rem)
      | _ => none
    | _ => none
  | _ => none

/-- `re.findall` for the `ip_address` pattern. -/
def ipFindall (t : Str) : List Str := scanWith ipMatchAt t.length none t

/-- The separator class `[\s-]` of the `credit_card` pattern. -/
def isCcSep (c : Char) : Bool := c.isWhitespace || c == '-'

/-- Consume exactly `n` digits, else fail. -/
def takeDigits (n : Nat) (t : Str) : Option (Str × Str) :=
  let d := t.take n
  if d.length == n && d.all (·.isDigit) then some (d, t.drop n) else none

/-- Consume one optional separator char (greedy `[…]?` is deterministic here:
the separator chars are not digits, so not consuming a present separator
always fails at the following `\d`). -/
def takeOptClass (p : Char → Bool) (t : Str) : Str × Str :=
  match t with
  | c :: rest => if p c then ([c], rest) else ([], t)
  | [] => ([], t)

/-- Matcher for the `credit_card` pattern
`\b\d{4}[\s-]?\d{4}[\s-]?\d{4}[\s-]?\d{4}\b`. -/
def ccMatchAt : MatchAt := fun prev t =>
  if isWordOpt prev then none else
  match takeDigits 4 t with
  | none => none
  | some (d1, t1) =>
    let (s1, t1') := takeOptClass isCcSep t1
    match takeDigits 4 t1' with
    | none => none
    | some (d2, t2) =>
      let (s2, t2') := takeOptClass isCcSep t2
      match takeDigits 4 t2' with
      | none => none
      | some (d3, t3) =>
        let (s3, t3') := takeOptClass isCcSep t3
        match takeDigits 4 t3' with
        | none => none
        | some (d4, rem) =>
          if isWordOpt rem.head? then none else
          let m := d1 ++ s1 ++ d2 ++ s2 ++ d3 ++ s3 ++ d4
          some (m, m.getLast?, rem)

/-- `re.findall` for the `credit_card` pattern. -/
def ccFindall (t : Str) : List Str := scanWith ccMatchAt t.length none t

/-- The separator class `[\s.-]` of the `phone` pattern. -/
def isPhoneSep (c : Char) : Bool := c.isWhitespace || c == '.' || c == '-'

/-- The mandatory tail `\(?\d{3}\)?[\s.-]?\d{3}[\s.-]?\d{4}` of the `phone`
pattern followed by the trailing `\b`; the optional one-char classes are
deterministic (their chars are never digits).  Returns the consumed prefix
and the remainder. -/
def phoneCore (t : Str) : Option (Str × Str) :=
  let (p1, ta) :=
    match t with
    | '(' :: rest => (['('], rest)
    | _ => ([], t)
  match takeDigits 3 ta with
  | none => none
  | some (d1, tb) =>
    let (p2, tb') :=
      match tb with
      | ')' :: rest => ([')'], rest)
      | _ => ([], tb)
    let (s1, tc) := takeOptClass isPhoneSep tb'
    match takeDigits 3 tc with
    | none => none
    | some (d2, td) =>
      let (s2, td') := takeOptClass isPhoneSep td
      match takeDigits 4 td' with
      | none => none
      | some (d3, rem) =>
        if isWordOpt rem.head? then none else
        some (p1 ++ d1 ++ p2 ++ s1 ++ d2 ++ s2 ++ d3, rem)

/-- Matcher for the `phone` pattern
`\b(\+\d{1,2}\s?)?\(?\d{3}\)?[\s.-]?\d{3}[\s.-]?\d{4}\b`.  The pattern has one
group, so `re.findall` reports the group's content (`''` when the optional
group does not participate).  The group alternative is tried first (greedy
`?`), with `\d{1,2}` backtracking from 2 digits to 1. -/
def phoneMatchAt : MatchAt := fun prev t =>
  let viaGroup : Option (Str × Option Char × Str) :=
    match t with
    | '+' :: t0 =>
      -- `\b` sits before the non-word `+`, so it needs a word char before it.
      if !(isWordOpt prev) then none else
      firstSome (fun k =>
        match takeDigits k t0 with
        | none => none
        | some (ds, t1) =>
          let (sp, t1') := takeOptClass (·.isWhitespace) t1
          match phoneCore t1' with
          | none => none
          | some (core, rem) =>
            let grp := '+' :: (ds ++ sp)
            some (grp, (grp ++ core).getLast?, rem)) [2, 1]
    | _ => none
  match viaGroup with
  | some res => some res
  | none =>
    match t.head? with
    | none => none
    | some c =>
      if isWordOpt prev == isWordChar c then none else
      match phoneCore t with
      | none => none
      | some (core, rem) => some ([], core.getLast?, rem)

/-- `re.findall` for the `phone` pattern. -/
def phoneFindall (t : Str) : List Str := scanWith phoneMatchAt t.length none t

/-- Local-part class `[A-Za-z0-9._%+-]` of the `email` pattern. -/
def isEmailLocal (c : Char) : Bool :=
  c.isAlphanum || c == '.' || c == '_' || c == '%' || c == '+' || c == '-'

/-- Domain class `[A-Za-z0-9.-]` of the `email` pattern. -/
def isEmailDomain (c : Char) : Bool :=
  c.isAlphanum || c == '.' || c == '-'

/-- TLD class `[A-Z|a-z]` of the `email` pattern (the literal `|` is part of
the character class in the source regex). -/
def isEmailTld (c : Char) : Bool :=
  c.isUpper || c.isLower || c == '|'

/-- Matcher for the `email` pattern
`\b[A-Za-z0-9._%+-]+@[A-Za-z0-9.-]+\.[A-Z|a-z]{2,}\b`.  The greedy local part
is deterministic (`@` is not in its class); the domain part backtracks over
the `.` positions inside its maximal run (longest first), and the greedy
`{2,}` TLD backtracks against the final `\b`. -/
def emailMatchAt : MatchAt := fun prev t =>
  match t.head? with
  | none => none
  | some c0 =>
    if isWordOpt prev == isWordChar c0 then none else
    let l := classRun isEmailLocal t
    if l == 0 then none else
    match t.drop l with
    | '@' :: t1 =>
      let dRun := classRun isEmailDomain t1
      let d := t1.take dRun
      -- candidate split positions i with d[i] = '.', d1 = d.take i nonempty
      firstSome (fun i =>
        if d.getD i ' ' == '.' && i ≥ 1 then
          let afterDot := t1.drop (i + 1)
          let tRun := classRun isEmailTld afterDot
          firstSome (fun k =>
            if k < 2 then none else
            let rem := afterDot.drop k
            let lastC := (afterDot.take k).getLast?
            if isWordOpt lastC == isWordOpt rem.head? then none else
            let m := t.take l ++ '@' :: (t1.take i ++ '.' :: afterDot.take k)
            some (m, lastC, rem))
            ((List.range (tRun + 1)).reverse)
        else none)
        ((List.range dRun).reverse)
    | _ => none

/-- `re.findall` for the `email` pattern. -/
def emailFindall (t : Str) : List Str := scanWith emailMatchAt t.length none t

/-- The `PATTERNS` table of `PIILeakageInvariant`, in dict (insertion) order. -/
def piiPATTERNS : List (Str × (Str → List Str)) :=
  [("email".toList, emailFindall),
   ("phone".toList, phoneFindall),
   ("ssn".toList, ssnFindall),
   ("credit_card".toList, ccFindall),
   ("ip_address".toList, ipFindall)]

/-- `PIILeakageInvariant._redact` (pii.py lines 74-77). -/
def _redact (text : Str) : Str :=
  if text.length ≤ 4 then "***".toList
  else text.take 2 ++ "***".toList ++ text.drop (text.length - 2)

/-- `metadata.id` of `PIILeakageInvariant`. -/
def piiId : Str := "safety.pii_leakage".toList

/-- The evidence item built for one PII type with a non-empty match list
(pii.py lines 46-54). -/
def piiEvidence (pii_type : Str) (ms : List Str) : ValidationEvidence :=
  { description := "Detected ".toList ++ pii_type
    extracted_text := some ((toString ms.length).toList ++ " instance(s): ".toList
      ++ List.intercalate ", ".toList ((ms.map _redact).take 3))
    confidence_score := some (17/20) }

/-- `PIILeakageInvariant.validate` (pii.py lines 37-72).  `exec_ms` models the
wall-clock execution time measurement. -/
def piiValidate (config : InvariantConfig) (exec_ms : Nat)
    (context : InvariantContext) : ValidationResult :=
  let text := context.response.text
  let detected := piiPATTERNS.filterMap (fun p =>
    let ms := p.2 text
    if ms.isEmpty then none else some (piiEvidence p.1 ms))
  if !detected.isEmpty then
    { invariant_id := piiId
      capture_event_id := context.capture_event.id
      status := .failed
      severity := config.severity
      message := "Detected ".toList ++ (toString detected.length).toList
        ++ " type(s) of PII".toList
      evidence := detected
      execution_time_ms := exec_ms }
  else
    { invariant_id := piiId
      capture_event_id := context.capture_event.id
      status := .passed
      severity := config.severity
      message := "No PII detected".toList
      evidence := []
      execution_time_ms := exec_ms }

/-! ## `domain/models/drift.py` (the parts the drift engine uses) -/

/-- `DriftType` enum. -/
inductive DriftType where
  | statistical | semantic | behavioral | performance
deriving DecidableEq, Repr

/-- `DriftSeverity` enum. -/
inductive DriftSeverity where
  | none | low | medium | high | critical
deriving DecidableEq, Repr

/-- `DriftWindow` dataclass; timestamps are rationals measured in hours, and
the Python field `end` is spelled `«end»`. -/
structure DriftWindow where
  start : ℚ := 0
  «end» : ℚ := 0
  label : Str := []
deriving DecidableEq, Repr

/-- `DriftMetric` dataclass (random `id`, `timestamp` and the metadata bag are
not modelled). -/
structure DriftMetric where
  drift_type : DriftType := .statistical
  metric_name : Str := []
  value : ℚ := 0
  threshold : ℚ := 0
  severity : DriftSeverity := .none
  baseline_window : DriftWindow := {}
  comparison_window : DriftWindow := {}
deriving DecidableEq, Repr

/-- `DriftMetric.is_drifting` property. -/
def DriftMetric.is_drifting (m : DriftMetric) : Bool :=
  decide (m.value > m.threshold)

/-- `DriftDetectionConfig` dataclass. -/
structure DriftDetectionConfig where
  enabled : Bool := true
  detection_interval_minutes : Nat := 15
  baseline_window_hours : Nat := 24
  comparison_window_hours : Nat := 1
  min_samples_required : Nat := 100
  kl_divergence_threshold : ℚ := 1/10
  js_divergence_threshold : ℚ := 1/10
  cosine_distance_threshold : ℚ := 3/20
  response_length_change_threshold : ℚ := 3/10
  latency_change_threshold : ℚ := 1/2
  cost_change_threshold : ℚ := 3/10
deriving DecidableEq, Repr

/-! ## `application/services/analysis/drift_service.py`

The stored capture rows (`CaptureEventModel`) expose the fields the engine
reads.  Library primitives are explicit parameters: `flog` models `math.log`
as used inside `scipy.stats.entropy` (the claims hold for every `flog`),
`cosine` models `scipy.spatial.distance.cosine`, and `RandomModel` models the
unseeded `np.random.choice` draws. -/

/-- One stored capture row as read by the drift engine. -/
structure CaptureEventModel where
  response_text : Str := []
  tokens_total : Option Nat := none
  latency_ms : Option ℚ := none
  cost_usd : Option ℚ := none
deriving DecidableEq, Repr

/-- The capture source: `get_captures_in_window(application_name, start, end)`. -/
structure CaptureRepository where
  get_captures_in_window : Str → ℚ → ℚ → List CaptureEventModel

/-- The embedding capability: `embed_batch(texts) -> vectors`. -/
structure EmbeddingService where
  embed_batch : List Str → List (List ℚ)

/-- Numeric library primitives used by the engine, kept abstract:
`flog` is `math.log` (inside `scipy.stats.entropy`), `cosine` is
`scipy.spatial.distance.cosine`. -/
structure MathModel where
  flog : ℚ → ℚ
  cosine : List ℚ → List ℚ → ℚ

/-- The unseeded `np.random.choice` draws of the semantic family:
`choice_captures data k` models `np.random.choice(data, k, replace=False)`,
`choice_idx n k` models `np.random.choice(n, k, replace=False)`. -/
structure RandomModel where
  choice_captures : List CaptureEventModel → Nat → List CaptureEventModel
  choice_idx : Nat → Nat → List Nat

/-- `min` of a Python list (callers guarantee non-emptiness; `0` on `[]`). -/
def listMin : List ℚ → ℚ
  | [] => 0
  | h :: t => t.foldl min h

/-- `max` of a Python list (callers guarantee non-emptiness; `0` on `[]`). -/
def listMax : List ℚ → ℚ
  | [] => 0
  | h :: t => t.foldl max h

/-- `np.histogram` lower outer edge: a degenerate range `(a, a)` is expanded
to `(a - 0.5, a + 0.5)` by numpy. -/
def outerLo (mn mx : ℚ) : ℚ := if mn == mx then mn - 1/2 else mn

/-- `np.histogram` upper outer edge. -/
def outerHi (mn mx : ℚ) : ℚ := if mn == mx then mx + 1/2 else mx

/-- `np.histogram(data, bins, range=(lo, hi))` counts: `bins` equal-width
bins over `[lo, hi]`, each half-open `[edge_i, edge_{i+1})` except the last,
which is closed; values outside the range are dropped. -/
def histogram (data : List ℚ) (bins : Nat) (lo hi : ℚ) : List Nat :=
  let w := (hi - lo) / (bins : ℚ)
  (List.range bins).map (fun i =>
    data.countP (fun x =>
      if i + 1 == bins then decide (lo + (i : ℚ) * w ≤ x) && decide (x ≤ hi)
      else decide (lo + (i : ℚ) * w ≤ x) && decide (x < lo + ((i : ℚ) + 1) * w)))

/-- The Laplace smoothing `(hist + 1e-10) / (hist.sum() + bins * 1e-10)`. -/
def smoothProbs (hist : List Nat) (bins : Nat) : List ℚ :=
  hist.map (fun h => ((h : ℚ) + 1/10^10) / ((hist.sum : ℚ) + (bins : ℚ) * (1/10^10)))

/-- `scipy.stats.entropy(pk, qk)`: normalize both inputs to sum 1, then
`sum(pk * log(pk / qk))`. -/
def scipyEntropy (flog : ℚ → ℚ) (pk qk : List ℚ) : ℚ :=
  let p := pk.map (· / pk.sum)
  let q := qk.map (· / qk.sum)
  ((p.zip q).map (fun x => x.1 * flog (x.1 / x.2))).sum

/-- `DriftDetectionService._calculate_kl_divergence` (lines 298-305). -/
def _calculate_kl_divergence (flog : ℚ → ℚ) (baseline comparison : List ℚ) : ℚ :=
  let bins : Nat := 20
  let min_val := min (listMin baseline) (listMin comparison)
  let max_val := max (listMax baseline) (listMax comparison)
  let lo := outerLo min_val max_val
  let hi := outerHi min_val max_val
  let baseline_prob := smoothProbs (histogram baseline bins lo hi) bins
  let comparison_prob := smoothProbs (histogram comparison bins lo hi) bins
  scipyEntropy flog comparison_prob baseline_prob

/-- `DriftDetectionService._calculate_js_divergence` (lines 307-316). -/
def _calculate_js_divergence (flog : ℚ → ℚ) (baseline comparison : List ℚ) : ℚ :=
  let bins : Nat := 20
  let min_val := min (listMin baseline) (listMin comparison)
  let max_val := max (listMax baseline) (listMax comparison)
  let lo := outerLo min_val max_val
  let hi := outerHi min_val max_val
  let baseline_prob := smoothProbs (histogram baseline bins lo hi) bins
  let comparison_prob := smoothProbs (histogram comparison bins lo hi) bins
  let m := (baseline_prob.zip comparison_prob).map (fun x => (x.1 + x.2) / 2)
  (scipyEntropy flog baseline_prob m + scipyEntropy flog comparison_prob m) / 2

/-- `DriftDetectionService._determine_severity` (lines 332-341). -/
def _determine_severity (value threshold : ℚ) : DriftSeverity :=
  if value < threshold then .none
  else if value < threshold * (3/2) then .low
  else if value < threshold * 2 then .medium
  else if value < threshold * 3 then .high
  else .critical

/-- `np.mean` over a list (`0` stands in for numpy's `nan` on `[]`, which no
guarded caller reaches). -/
def npMean (l : List ℚ) : ℚ :=
  if l.length == 0 then 0 else l.sum / (l.length : ℚ)

/-- Insert into an ascending-sorted list (auxiliary for `np.sort`). -/
def insertSorted (x : ℚ) : List ℚ → List ℚ
  | [] => [x]
  | y :: ys => if x ≤ y then x :: y :: ys else y :: insertSorted x ys

/-- The ascending sort used by `np.percentile` (insertion sort; only the
sorted values matter). -/
def sortRat (l : List ℚ) : List ℚ := l.foldr insertSorted []

/-- `np.percentile(l, 95)` with the default linear interpolation. -/
def npPercentile95 (l : List ℚ) : ℚ :=
  if l.length == 0 then 0 else
  let s := sortRat l
  let h : ℚ := ((l.length : ℚ) - 1) * (19/20)
  let lo : Nat := h.floor.toNat
  let a := s.getD lo 0
  let b := s.getD (lo + 1) a
  a + (h - (lo : ℚ)) * (b - a)

/-- `np.mean(vectors, axis=0)`: the componentwise mean (centroid). -/
def npMeanAxis0 (vs : List (List ℚ)) : List ℚ :=
  match vs with
  | [] => []
  | v :: _ => (List.range v.length).map
      (fun i => (vs.map (fun w => w.getD i 0)).sum / (vs.length : ℚ))

/-- `DriftDetectionService._detect_statistical_drift` (lines 119-168). -/
def _detect_statistical_drift (math : MathModel) (config : DriftDetectionConfig)
    (baseline_data comparison_data : List CaptureEventModel)
    (baseline_window comparison_window : DriftWindow) : List DriftMetric :=
  let baseline_lengths := baseline_data.map (fun d => (d.response_text.length : ℚ))
  let comparison_lengths := comparison_data.map (fun d => (d.response_text.length : ℚ))
  let kl_div := _calculate_kl_divergence math.flog baseline_lengths comparison_lengths
  let js_div := _calculate_js_divergence math.flog baseline_lengths comparison_lengths
  let baseline_tokens := baseline_data.map (fun d => ((d.tokens_total.getD 0 : Nat) : ℚ))
  let comparison_tokens := comparison_data.map (fun d => ((d.tokens_total.getD 0 : Nat) : ℚ))
  let token_kl := _calculate_kl_divergence math.flog baseline_tokens comparison_tokens
  [ { drift_type := .statistical
      metric_name := "kl_divergence_response_length".toList
      value := kl_div
      threshold := config.kl_divergence_threshold
      severity := _determine_severity kl_div config.kl_divergence_threshold
      baseline_window := baseline_window
      comparison_window := comparison_window },
    { drift_type := .statistical
      metric_name := "js_divergence_response_length".toList
      value := js_div
      threshold := config.js_divergence_threshold
      severity := _determine_severity js_div config.js_divergence_threshold
      baseline_window := baseline_window
      comparison_window := comparison_window },
    { drift_type := .statistical
      metric_name := "kl_divergence_token_usage".toList
      value := token_kl
      threshold := config.kl_divergence_threshold
      severity := _determine_severity token_kl config.kl_divergence_threshold
      baseline_window := baseline_window
      comparison_window := comparison_window } ]

/-- `DriftDetectionService._calculate_avg_pairwise_distance` (lines 318-330). -/
def _calculate_avg_pairwise_distance (math : MathModel) (rnd : RandomModel)
    (embeddings : List (List ℚ)) : ℚ :=
  let n := embeddings.length
  if n < 2 then 0 else
  let sample := min 50 n
  let idx := rnd.choice_idx n sample
  let pairs := (List.range idx.length).flatMap (fun i =>
    ((List.range idx.length).filter (fun j => i < j)).map
      (fun j => (idx.getD i 0, idx.getD j 0)))
  let total := (pairs.map (fun p =>
    math.cosine (embeddings.getD p.1 []) (embeddings.getD p.2 []))).sum
  if pairs.length == 0 then 0 else total / (pairs.length : ℚ)

/-- `DriftDetectionService._detect_semantic_drift` (lines 170-211). -/
def _detect_semantic_drift (math : MathModel) (rnd : RandomModel)
    (emb : EmbeddingService) (config : DriftDetectionConfig)
    (baseline_data comparison_data : List CaptureEventModel)
    (baseline_window comparison_window : DriftWindow) : List DriftMetric :=
  let sample_size := min 100 (min baseline_data.length comparison_data.length)
  let baseline_sample := rnd.choice_captures baseline_data sample_size
  let comparison_sample := rnd.choice_captures comparison_data sample_size
  let baseline_embeddings := emb.embed_batch (baseline_sample.map (·.response_text))
  let comparison_embeddings := emb.embed_batch (comparison_sample.map (·.response_text))
  let baseline_centroid := npMeanAxis0 baseline_embeddings
  let comparison_centroid := npMeanAxis0 comparison_embeddings
  let cosine_dist := math.cosine baseline_centroid comparison_centroid
  let baseline_avg_dist := _calculate_avg_pairwise_distance math rnd baseline_embeddings
  let comparison_avg_dist := _calculate_avg_pairwise_distance math rnd comparison_embeddings
  let distance_change := |comparison_avg_dist - baseline_avg_dist| / max baseline_avg_dist (1/10^9)
  [ { drift_type := .semantic
      metric_name := "cosine_distance_centroid".toList
      value := cosine_dist
      threshold := config.cosine_distance_threshold
      severity := _determine_severity cosine_dist config.cosine_distance_threshold
      baseline_window := baseline_window
      comparison_window := comparison_window },
    { drift_type := .semantic
      metric_name := "pairwise_distance_change".toList
      value := distance_change
      threshold := config.cosine_distance_threshold
      severity := _determine_severity distance_change config.cosine_distance_threshold
      baseline_window := baseline_window
      comparison_window := comparison_window } ]

/-- Number of non-blank sentences: `len([s for s in text.split(".") if s.strip()])`. -/
def sentenceCount (t : Str) : Nat :=
  ((t.splitOn '.').filter (fun s => s.any (fun c => !c.isWhitespace))).length

/-- `DriftDetectionService._detect_behavioral_drift` (lines 213-254). -/
def _detect_behavioral_drift (config : DriftDetectionConfig)
    (baseline_data comparison_data : List CaptureEventModel)
    (baseline_window comparison_window : DriftWindow) : List DriftMetric :=
  let baseline_avg_length := npMean (baseline_data.map (fun d => (d.response_text.length : ℚ)))
  let comparison_avg_length := npMean (comparison_data.map (fun d => (d.response_text.length : ℚ)))
  let length_change := |comparison_avg_length - baseline_avg_length| / max baseline_avg_length (1/10^9)
  let baseline_avg_sentences := npMean (baseline_data.map (fun d => (sentenceCount d.response_text : ℚ)))
  let comparison_avg_sentences := npMean (comparison_data.map (fun d => (sentenceCount d.response_text : ℚ)))
  let sentence_change := |comparison_avg_sentences - baseline_avg_sentences| / max baseline_avg_sentences (1/10^9)
  [ { drift_type := .behavioral
      metric_name := "response_length_change".toList
      value := length_change
      threshold := config.response_length_change_threshold
      severity := _determine_severity length_change config.response_length_change_threshold
      baseline_window := baseline_window
      comparison_window := comparison_window },
    { drift_type := .behavioral
      metric_name := "sentence_count_change".toList
      value := sentence_change
      threshold := config.response_length_change_threshold
      severity := _determine_severity sentence_change config.response_length_change_threshold
      baseline_window := baseline_window
      comparison_window := comparison_window } ]

/-- `DriftDetectionService._detect_performance_drift` (lines 256-296).
Note: `value` is the signed relative change, while the stored severity is
computed from `abs(...)` of it. -/
def _detect_performance_drift (config : DriftDetectionConfig)
    (baseline_data comparison_data : List CaptureEventModel)
    (baseline_window comparison_window : DriftWindow) : List DriftMetric :=
  let baseline_p95 := npPercentile95 (baseline_data.map (fun d => d.latency_ms.getD 0))
  let comparison_p95 := npPercentile95 (comparison_data.map (fun d => d.latency_ms.getD 0))
  let latency_change := (comparison_p95 - baseline_p95) / max baseline_p95 (1/10^9)
  let baseline_avg_cost := npMean (baseline_data.map (fun d => d.cost_usd.getD 0))
  let comparison_avg_cost := npMean (comparison_data.map (fun d => d.cost_usd.getD 0))
  let cost_change := (comparison_avg_cost - baseline_avg_cost) / max baseline_avg_cost (1/10^9)
  [ { drift_type := .performance
      metric_name := "latency_p95_change".toList
      value := latency_change
      threshold := config.latency_change_threshold
      severity := _determine_severity |latency_change| config.latency_change_threshold
      baseline_window := baseline_window
      comparison_window := comparison_window },
    { drift_type := .performance
      metric_name := "cost_per_request_change".toList
      value := cost_change
      threshold := config.cost_change_threshold
      severity := _determine_severity |cost_change| config.cost_change_threshold
      baseline_window := baseline_window
      comparison_window := comparison_window } ]

/-- The comparison-window default of `detect_drift` (lines 50-55):
`[now - comparison_hours, now]` when no window is passed. -/
def resolveComparisonWindow (config : DriftDetectionConfig)
    (comparison_window? : Option DriftWindow) (now : ℚ) : DriftWindow :=
  match comparison_window? with
  | some w => w
  | none => { start := now - (config.comparison_window_hours : ℚ), «end» := now,
              label := "current".toList }

/-- The baseline-window default of `detect_drift` (lines 56-61): immediately
preceding the comparison window. -/
def resolveBaselineWindow (config : DriftDetectionConfig)
    (baseline_window? : Option DriftWindow) (now : ℚ) : DriftWindow :=
  match baseline_window? with
  | some w => w
  | none => { start := now - ((config.baseline_window_hours : ℚ) + (config.comparison_window_hours : ℚ)),
              «end» := now - (config.comparison_window_hours : ℚ),
              label := "baseline".toList }

/-- `DriftDetectionService.detect_drift` (lines 41-117).  `now` models
`datetime.utcnow()` (in hours); window defaults and the two
insufficient-sample guards are as in the source. -/
def detect_drift (repo : CaptureRepository) (emb : EmbeddingService)
    (math : MathModel) (rnd : RandomModel) (config : DriftDetectionConfig)
    (application_name : Str) (comparison_window? baseline_window? : Option DriftWindow)
    (now : ℚ) : List DriftMetric :=
  let comparison_window := resolveComparisonWindow config comparison_window? now
  let baseline_window := resolveBaselineWindow config baseline_window? now
  let baseline_data := repo.get_captures_in_window application_name
    baseline_window.start baseline_window.«end»
  let comparison_data := repo.get_captures_in_window application_name
    comparison_window.start comparison_window.«end»
  if baseline_data.length < config.min_samples_required then []
  else if comparison_data.length < config.min_samples_required then []
  else
    _detect_statistical_drift math config baseline_data comparison_data
      baseline_window comparison_window
    ++ _detect_semantic_drift math rnd emb config baseline_data comparison_data
      baseline_window comparison_window
    ++ _detect_behavioral_drift config baseline_data comparison_data
      baseline_window comparison_window
    ++ _detect_performance_drift config baseline_data comparison_data
      baseline_window comparison_window

/-! ## Theorems -/

/-- C9: passing `invariant_ids = []` is the same as omitting the argument:
both are falsy, so `validate_capture` falls back to all enabled invariants. -/
theorem validate_capture_empty_ids_eq_none (reg : InvariantRegistry)
    (md5int : Str → Nat) (default_timeout_ms : Nat) (capture_event : CaptureEvent) :
    validate_capture reg md5int default_timeout_ms capture_event (some []) =
      validate_capture reg md5int default_timeout_ms capture_event none := rfl

/-- C5: an invariant with `timeout_ms=50`, `retry_on_error=true`,
`max_retries=2` whose `validate` times out on every attempt is attempted
exactly 3 times, and the engine returns (not raises) a status=ERROR result
whose message names the 50ms timeout. -/
theorem timeout_exhaustion_three_attempts (default_timeout_ms : Nat)
    (inv : AbstractInvariant) (context : InvariantContext)
    (ht : inv.config.timeout_ms = 50) (hr : inv.config.retry_on_error = true)
    (hm : inv.config.max_retries = 2)
    (hb : ∀ n, inv.behavior n = .timeout) :
    _execute_single_invariant default_timeout_ms inv context =
      (.ok { invariant_id := inv.id
             capture_event_id := context.capture_event.id
             status := .error
             severity := inv.config.severity
             message := "Execution timeout after 50ms".toList }, 3) := by
  simp only [_execute_single_invariant, ht, hr, hm, if_true]
  norm_num
  simp only [attemptLoop, hb, timeoutErrorResult]
  rfl

/-- Witness for C5 at a concrete always-timing-out invariant. -/
theorem timeout_exhaustion_three_attempts_witness :
    _execute_single_invariant 5000
      { id := "inv.x".toList
        config := { timeout_ms := 50, retry_on_error := true, max_retries := 2 }
        behavior := fun _ => .timeout }
      ⟨{ id := 9, request := { id := "req".toList } }⟩ =
      (.ok { invariant_id := "inv.x".toList
             capture_event_id := 9
             status := .error
             severity := .medium
             message := "Execution timeout after 50ms".toList }, 3) :=
  timeout_exhaustion_three_attempts 5000 _ _ rfl rfl rfl (fun _ => rfl)

/-- C7: re-registering an already-present id fails with `DuplicateInvariant`
and leaves the registry unchanged (still exactly one entry for that id,
holding the first instance); `unregister` of an absent id is a no-op. -/
theorem register_duplicate_rejected (reg reg1 : InvariantRegistry)
    (inv1 inv2 : AbstractInvariant) (h12 : inv1.id = inv2.id)
    (hreg : reg.register inv1 = .ok reg1) :
    reg1.register inv2 = .error (.duplicateInvariant inv2.id) ∧
    reg1.get inv1.id = some inv1 ∧
    reg1._invariants.countP (fun p => p.1 == inv1.id) = 1 ∧
    ∀ (reg' : InvariantRegistry) (id : Str), reg'.get id = none →
      reg'.unregister id = reg' := by
  unfold InvariantRegistry.register at hreg
  split at hreg
  · exact absurd hreg (by simp)
  · rename_i hany
    rw [List.any_eq_true] at hany
    push_neg at hany
    obtain rfl : reg1 = ⟨reg._invariants ++ [(inv1.id, inv1)]⟩ := by
      cases hreg; rfl
    refine ⟨?_, ?_, ?_, ?_⟩
    · unfold InvariantRegistry.register
      rw [if_pos]
      simp [List.any_append, h12]
    · unfold InvariantRegistry.get
      rw [List.find?_append]
      have : reg._invariants.find? (fun p => p.1 == inv1.id) = none := by
        rw [List.find?_eq_none]
        intro p hp
        simpa using fun hcontra => (hany p hp) (by simp [hcontra])
      simp [this]
    · rw [List.countP_append]
      have h0 : reg._invariants.countP (fun p => p.1 == inv1.id) = 0 := by
        rw [List.countP_eq_zero]
        intro p hp
        simpa using fun hcontra => (hany p hp) (by simp [hcontra])
      simp [h0]
    · intro reg' id hnone
      unfold InvariantRegistry.get at hnone
      unfold InvariantRegistry.unregister
      have hfind : reg'._invariants.find? (fun p => p.1 == id) = none := by
        cases hf : reg'._invariants.find? (fun p => p.1 == id) with
        | none => rfl
        | some v => rw [hf] at hnone; simp at hnone
      rw [List.find?_eq_none] at hfind
      have : reg'._invariants.filter (fun p => !(p.1 == id)) = reg'._invariants := by
        rw [List.filter_eq_self]
        intro p hp
        simpa using hfind p hp
      rw [this]

/-- Witness for C7 with two concrete invariants sharing the id `"a"`. -/
theorem register_duplicate_rejected_witness :
    (InvariantRegistry.register ⟨[]⟩
        { id := "a".toList, behavior := fun _ => .timeout } =
      .ok ⟨[("a".toList, { id := "a".toList, behavior := fun _ => .timeout })]⟩) ∧
    (InvariantRegistry.register
        ⟨[("a".toList, { id := "a".toList, behavior := fun _ => .timeout })]⟩
        { id := "a".toList, config := { severity := .high }, behavior := fun _ => .exc [] } =
      .error (.duplicateInvariant "a".toList)) ∧
    (InvariantRegistry.get
        ⟨[("a".toList, { id := "a".toList, behavior := fun _ => .timeout })]⟩ "a".toList =
      some { id := "a".toList, behavior := fun _ => .timeout }) ∧
    (InvariantRegistry._invariants
        ⟨[("a".toList, { id := "a".toList, behavior := fun _ => .timeout })]⟩).countP
        (fun p => p.1 == "a".toList) = 1 := by
  have h := register_duplicate_rejected ⟨[]⟩
    ⟨[("a".toList, { id := "a".toList, behavior := fun _ => .timeout })]⟩
    { id := "a".toList, behavior := fun _ => .timeout }
    { id := "a".toList, config := { severity := .high }, behavior := fun _ => .exc [] }
    rfl rfl
  exact ⟨rfl, h.1, h.2.1, h.2.2.1⟩

/-- C4: if either fetched capture set is below `min_samples_required`,
`detect_drift` returns the empty metric list (and raises nothing). -/
theorem detect_drift_insufficient_samples (repo : CaptureRepository)
    (emb : EmbeddingService) (math : MathModel) (rnd : RandomModel)
    (config : DriftDetectionConfig) (application_name : Str)
    (comparison_window? baseline_window? : Option DriftWindow) (now : ℚ)
    (h : (repo.get_captures_in_window application_name
            (resolveBaselineWindow config baseline_window? now).start
            (resolveBaselineWindow config baseline_window? now).«end»).length
              < config.min_samples_required ∨
         (repo.get_captures_in_window application_name
            (resolveComparisonWindow config comparison_window? now).start
            (resolveComparisonWindow config comparison_window? now).«end»).length
              < config.min_samples_required) :
    detect_drift repo emb math rnd config application_name
      comparison_window? baseline_window? now = [] := by
  unfold detect_drift
  dsimp only
  rcases h with h | h
  · rw [if_pos h]
  · by_cases hb : (repo.get_captures_in_window application_name
        (resolveBaselineWindow config baseline_window? now).start
        (resolveBaselineWindow config baseline_window? now).«end»).length
          < config.min_samples_required
    · rw [if_pos hb]
    · rw [if_neg hb, if_pos h]

/-- Witness for C4: a capture source returning 50 rows per window against the
default `min_samples_required = 100` yields the empty list. -/
theorem detect_drift_insufficient_samples_witness :
    ((⟨fun _ _ _ => List.replicate 50 {}⟩ : CaptureRepository).get_captures_in_window
        "app".toList
        (resolveBaselineWindow {} none 0).start
        (resolveBaselineWindow {} none 0).«end»).length
          < ({} : DriftDetectionConfig).min_samples_required ∧
    detect_drift ⟨fun _ _ _ => List.replicate 50 {}⟩ ⟨fun _ => []⟩
      ⟨fun _ => 0, fun _ _ => 0⟩ ⟨fun l _ => l, fun _ k => List.range k⟩
      {} "app".toList none none 0 = [] := by
  refine ⟨by simp, ?_⟩
  exact detect_drift_insufficient_samples _ _ _ _ _ _ _ _ _ (Or.inl (by simp))

/-- C3: for an enabled invariant that passes its scope checks, the sampling
decision of `should_apply` with rate `r < 1` admits the capture exactly when
`(md5(request id) % 100) / 100 ≤ r` — a pure function of the request id and
`r` — and with `r = 1` no sampling check is applied at all. -/
theorem should_apply_deterministic_sampling (inv : AbstractInvariant)
    (md5int : Str → Nat) (context : InvariantContext)
    (hen : inv.config.enabled = true)
    (hs1 : inv.config.scope = .specific_applications →
      context.request.context.application_name ∈ inv.config.scope_filters.applications)
    (hs2 : inv.config.scope = .specific_users →
      context.request.context.user_id ∈ inv.config.scope_filters.user_ids)
    (hs3 : inv.config.scope = .ab_variant →
      context.request.context.ab_variant = inv.config.scope_filters.variant) :
    (inv.config.sampling_rate < 1 →
      (inv.should_apply md5int context = true ↔
        ((md5int context.request.id % 100 : Nat) : ℚ) / 100 ≤ inv.config.sampling_rate)) ∧
    (inv.config.sampling_rate = 1 → inv.should_apply md5int context = true) := by
  have g1 : (inv.config.scope == InvariantScope.specific_applications
      && !(inv.config.scope_filters.applications.contains
            context.request.context.application_name)) = false := by
    by_cases hsc : inv.config.scope = InvariantScope.specific_applications
    · simp [hsc, hs1 hsc]
    · simp [beq_iff_eq, hsc]
  have g2 : (inv.config.scope == InvariantScope.specific_users
      && !(inv.config.scope_filters.user_ids.contains
            context.request.context.user_id)) = false := by
    by_cases hsc : inv.config.scope = InvariantScope.specific_users
    · simp [hsc, hs2 hsc]
    · simp [beq_iff_eq, hsc]
  have g3 : (inv.config.scope == InvariantScope.ab_variant
      && !(context.request.context.ab_variant == inv.config.scope_filters.variant)) = false := by
    by_cases hsc : inv.config.scope = InvariantScope.ab_variant
    · simp [hsc, hs3 hsc]
    · simp [beq_iff_eq, hsc]
  unfold AbstractInvariant.should_apply
  rw [hen, g1, g2, g3]
  simp only [Bool.not_true, Bool.false_eq_true, if_false]
  constructor
  · intro hlt
    split_ifs with hcond
    · simp only [Bool.and_eq_true, decide_eq_true_eq] at hcond
      constructor
      · intro h; exact absurd h (by simp)
      · intro h; exact absurd hcond.2 (not_lt.mpr h)
    · simp only [Bool.and_eq_true, decide_eq_true_eq, not_and, not_lt] at hcond
      simp [hcond hlt]
  · intro h1
    split_ifs with hcond
    · simp only [Bool.and_eq_true, decide_eq_true_eq] at hcond
      exact absurd hcond.1 (by rw [h1]; exact lt_irrefl 1)
    · rfl

/-- Witness for C3 at a concrete invariant with `sampling_rate = 1/2` and a
concrete hash function. -/
theorem should_apply_deterministic_sampling_witness :
    (AbstractInvariant.should_apply
        { id := "i".toList, config := { sampling_rate := 1/2 },
          behavior := fun _ => .timeout }
        (fun _ => 142) ⟨{ request := { id := "req".toList } }⟩ = true ↔
      ((142 % 100 : Nat) : ℚ) / 100 ≤ 1/2) := by
  have h := should_apply_deterministic_sampling
    { id := "i".toList, config := { sampling_rate := 1/2 },
      behavior := fun _ => .timeout }
    (fun _ => 142) ⟨{ request := { id := "req".toList } }⟩
    rfl (by intro h; cases h) (by intro h; cases h) (by intro h; cases h)
  exact h.1 (by norm_num)

/-- C2 counterexample: a concrete `detect_drift` run (one capture per window,
baseline p95 latency 100, comparison 0, `min_samples_required = 1`) produces a
performance metric whose stored severity (HIGH, from `abs(value)`) differs
from the bracket of its stored (negative) `value` field. -/
theorem detect_drift_severity_not_bracket_of_value :
    ∃ m ∈ detect_drift
      ⟨fun _ s _ => if s < -1 then [{ latency_ms := some 100 }] else [{ latency_ms := some 0 }]⟩
      ⟨fun ts => ts.map (fun _ => [0])⟩
      ⟨fun _ => 0, fun _ _ => 0⟩
      ⟨fun l _ => l, fun _ k => List.range k⟩
      { min_samples_required := 1 } "app".toList none none 0,
      m.severity ≠ _determine_severity m.value m.threshold := by
  with_unfolding_all decide

/-- C2 (amended): every metric produced by `detect_drift` carries
`severity = bracket(value, threshold)` in the statistical, semantic and
behavioral families, but in the performance family the severity is the
bracket of the absolute value of the stored `value`; the bracket itself sends
value 0.15 with threshold 0.1 to MEDIUM. -/
theorem detect_drift_severity_bracket (repo : CaptureRepository)
    (emb : EmbeddingService) (math : MathModel) (rnd : RandomModel)
    (config : DriftDetectionConfig) (application_name : Str)
    (comparison_window? baseline_window? : Option DriftWindow) (now : ℚ)
    (m : DriftMetric)
    (hm : m ∈ detect_drift repo emb math rnd config application_name
        comparison_window? baseline_window? now) :
    m.severity = _determine_severity
      (if m.drift_type = DriftType.performance then |m.value| else m.value)
      m.threshold ∧
    _determine_severity (15/100 : ℚ) (1/10) = DriftSeverity.medium := by
  refine ⟨?_, by with_unfolding_all decide⟩
  unfold detect_drift at hm
  dsimp only at hm
  split at hm
  · exact absurd hm (List.not_mem_nil m)
  · split at hm
    · exact absurd hm (List.not_mem_nil m)
    · simp only [List.mem_append] at hm
      rcases hm with ((hm | hm) | hm) | hm
      · simp only [_detect_statistical_drift, List.mem_cons, List.not_mem_nil,
          or_false] at hm
        rcases hm with hm | hm | hm <;> (subst m; rfl)
      · simp only [_detect_semantic_drift, List.mem_cons, List.not_mem_nil,
          or_false] at hm
        rcases hm with hm | hm <;> (subst m; rfl)
      · simp only [_detect_behavioral_drift, List.mem_cons, List.not_mem_nil,
          or_false] at hm
        rcases hm with hm | hm <;> (subst m; rfl)
      · simp only [_detect_performance_drift, List.mem_cons, List.not_mem_nil,
          or_false] at hm
        rcases hm with hm | hm <;> (subst m; rfl)

/-- Witness for C2's amended statement at the concrete run used above: the
cost metric sits in `detect_drift`'s output and satisfies the bracket law. -/
theorem detect_drift_severity_bracket_witness :
    ∃ m ∈ detect_drift
      ⟨fun _ s _ => if s < -1 then [{ latency_ms := some 100 }] else [{ latency_ms := some 0 }]⟩
      ⟨fun ts => ts.map (fun _ => [0])⟩
      ⟨fun _ => 0, fun _ _ => 0⟩
      ⟨fun l _ => l, fun _ k => List.range k⟩
      { min_samples_required := 1 } "app".toList none none 0,
      m.severity = _determine_severity
        (if m.drift_type = DriftType.performance then |m.value| else m.value)
        m.threshold := by
  have hmem : ∃ m ∈ detect_drift
      ⟨fun _ s _ => if s < -1 then [{ latency_ms := some 100 }] else [{ latency_ms := some 0 }]⟩
      ⟨fun ts => ts.map (fun _ => [0])⟩
      ⟨fun _ => 0, fun _ _ => 0⟩
      ⟨fun l _ => l, fun _ k => List.range k⟩
      { min_samples_required := 1 } "app".toList none none 0, True := by
    with_unfolding_all decide
  obtain ⟨m, hm, -⟩ := hmem
  exact ⟨m, hm, (detect_drift_severity_bracket _ _ _ _ _ _ _ _ _ m hm).1⟩

/-- If the retry loop returns a result, it is either a value the invariant's
`validate` produced, or the synthesized timeout ERROR result. -/
theorem attemptLoop_ok_cases (inv : AbstractInvariant) (context : InvariantContext)
    (timeout_ms : Nat) : ∀ fuel attempt r,
    (attemptLoop inv context timeout_ms attempt fuel).1 = .ok r →
    (∃ n, inv.behavior n = .ok r) ∨ r = timeoutErrorResult inv context timeout_ms := by
  intro fuel
  induction fuel with
  | zero =>
    intro attempt r h
    unfold attemptLoop at h
    cases hb : inv.behavior attempt <;> rw [hb] at h <;> simp at h
    · exact .inl ⟨attempt, by rw [hb, h]⟩
    · exact .inr h.symm
  | succ fuel ih =>
    intro attempt r h
    unfold attemptLoop at h
    cases hb : inv.behavior attempt <;> rw [hb] at h
    · simp at h
      exact .inl ⟨attempt, by rw [hb, h]⟩
    · exact ih (attempt + 1) r h
    · exact ih (attempt + 1) r h

/-- If `validate` never returns a value (every attempt times out or raises),
the retry loop ends in the timeout ERROR result or re-raises. -/
theorem attemptLoop_no_ok (inv : AbstractInvariant) (context : InvariantContext)
    (timeout_ms : Nat)
    (hb : ∀ n, inv.behavior n = .timeout ∨ ∃ e, inv.behavior n = .exc e) :
    ∀ fuel attempt,
    (attemptLoop inv context timeout_ms attempt fuel).1 =
        .ok (timeoutErrorResult inv context timeout_ms) ∨
    ∃ e, (attemptLoop inv context timeout_ms attempt fuel).1 = .error e := by
  intro fuel
  induction fuel with
  | zero =>
    intro attempt
    unfold attemptLoop
    rcases hb attempt with h | ⟨e, h⟩ <;> rw [h]
    · exact .inl rfl
    · exact .inr ⟨e, rfl⟩
  | succ fuel ih =>
    intro attempt
    unfold attemptLoop
    rcases hb attempt with h | ⟨e, h⟩ <;> rw [h]
    · exact ih (attempt + 1)
    · exact ih (attempt + 1)

/-- Elements of `l.zip (l.map f)` are exactly the pairs `(a, f a)`. -/
theorem zip_map_self_mem {α β : Type} (f : α → β) (l : List α) (p : α × β)
    (hp : p ∈ l.zip (l.map f)) : p.2 = f p.1 ∧ p.1 ∈ l := by
  induction l with
  | nil => cases hp
  | cons a t ih =>
    simp only [List.map_cons, List.zip_cons_cons, List.mem_cons] at hp
    rcases hp with rfl | hp
    · exact ⟨rfl, List.mem_cons_self _ _⟩
    · obtain ⟨h1, h2⟩ := ih hp
      exact ⟨h1, List.mem_cons_of_mem _ h2⟩

/-- The result `_execute_invariants_parallel` records for one invariant:
it carries the invariant's id, and both failure modes (re-raised exception,
or no attempt ever returning a value) are degraded to status=ERROR. -/
theorem exec_processed_spec (default_timeout_ms : Nat) (inv : AbstractInvariant)
    (ctx : InvariantContext)
    (hid : ∀ n r, inv.behavior n = .ok r → r.invariant_id = inv.id) :
    (match (_execute_single_invariant default_timeout_ms inv ctx).1 with
      | .ok r => r
      | .error e => executionErrorResult inv ctx e).invariant_id = inv.id ∧
    (∀ e, (_execute_single_invariant default_timeout_ms inv ctx).1 = .error e →
      (match (_execute_single_invariant default_timeout_ms inv ctx).1 with
        | .ok r => r
        | .error e => executionErrorResult inv ctx e).status = .error) ∧
    ((∀ n, inv.behavior n = .timeout ∨ ∃ e', inv.behavior n = .exc e') →
      (match (_execute_single_invariant default_timeout_ms inv ctx).1 with
        | .ok r => r
        | .error e => executionErrorResult inv ctx e).status = .error) := by
  cases hex : (_execute_single_invariant default_timeout_ms inv ctx).1 with
  | ok r =>
    refine ⟨?_, ?_, ?_⟩
    · simp only [hex]
      unfold _execute_single_invariant at hex
      rcases attemptLoop_ok_cases inv ctx _ _ _ r hex with ⟨n, hn⟩ | rfl
      · exact hid n r hn
      · rfl
    · intro e he
      cases he
    · intro hb
      simp only [hex]
      unfold _execute_single_invariant at hex
      rcases attemptLoop_no_ok inv ctx _ hb _ 0 with h | ⟨e, h⟩
      · rw [hex] at h
        cases h
        rfl
      · rw [hex] at h
        cases h
  | error e =>
    refine ⟨?_, ?_, ?_⟩ <;> simp only [hex]
    · rfl
    · intro e' _
      rfl
    · intro _
      rfl

/-- C1: `validate_capture` returns exactly one result per invariant of the
applicable set, positionally 1:1 with it; each result carries its invariant's
id (given that the invariant's own `validate` results do); a re-raised
exception is degraded to a status=ERROR result rather than propagated; and an
invariant whose attempts never return a value (timeouts and/or exceptions
throughout) yields a status=ERROR result. -/
theorem validate_capture_one_result_per_applicable (reg : InvariantRegistry)
    (md5int : Str → Nat) (default_timeout_ms : Nat) (capture_event : CaptureEvent)
    (invariant_ids : Option (List Str))
    (hid : ∀ inv ∈ applicableSet reg md5int capture_event invariant_ids,
      ∀ n r, inv.behavior n = .ok r → r.invariant_id = inv.id) :
    (validate_capture reg md5int default_timeout_ms capture_event invariant_ids).length
      = (applicableSet reg md5int capture_event invariant_ids).length ∧
    ∀ p ∈ (applicableSet reg md5int capture_event invariant_ids).zip
        (validate_capture reg md5int default_timeout_ms capture_event invariant_ids),
      p.2.invariant_id = p.1.id ∧
      (∀ e, (_execute_single_invariant default_timeout_ms p.1 ⟨capture_event⟩).1 = .error e →
        p.2.status = .error) ∧
      ((∀ n, p.1.behavior n = .timeout ∨ ∃ e', p.1.behavior n = .exc e') →
        p.2.status = .error) := by
  constructor
  · simp [validate_capture, _execute_invariants_parallel]
  · intro p hp
    have hv : validate_capture reg md5int default_timeout_ms capture_event invariant_ids =
        (applicableSet reg md5int capture_event invariant_ids).map
          (fun inv =>
            match (_execute_single_invariant default_timeout_ms inv ⟨capture_event⟩).1 with
            | .ok r => r
            | .error e => executionErrorResult inv ⟨capture_event⟩ e) := rfl
    rw [hv] at hp
    obtain ⟨hp2, hp1⟩ := zip_map_self_mem _ _ p hp
    have h := exec_processed_spec default_timeout_ms p.1 ⟨capture_event⟩ (hid p.1 hp1)
    rw [hp2]
    exact h

/-- Witness for C1: one registered, enabled, applicable invariant returning a
result carrying its own id. -/
theorem validate_capture_one_result_per_applicable_witness :
    (validate_capture
        ⟨[("a".toList, { id := "a".toList,
                         behavior := fun _ =>
                           .ok { invariant_id := "a".toList, capture_event_id := 3 } })]⟩
        (fun _ => 0) 5000 { id := 3, request := { id := "r".toList } } none).length
      = (applicableSet
        ⟨[("a".toList, { id := "a".toList,
                         behavior := fun _ =>
                           .ok { invariant_id := "a".toList, capture_event_id := 3 } })]⟩
        (fun _ => 0) { id := 3, request := { id := "r".toList } } none).length ∧
    ∀ p ∈ (applicableSet
        ⟨[("a".toList, { id := "a".toList,
                         behavior := fun _ =>
                           .ok { invariant_id := "a".toList, capture_event_id := 3 } })]⟩
        (fun _ => 0) { id := 3, request := { id := "r".toList } } none).zip
        (validate_capture
          ⟨[("a".toList, { id := "a".toList,
                           behavior := fun _ =>
                             .ok { invariant_id := "a".toList, capture_event_id := 3 } })]⟩
          (fun _ => 0) 5000 { id := 3, request := { id := "r".toList } } none),
      p.2.invariant_id = p.1.id ∧
      (∀ e, (_execute_single_invariant 5000 p.1
          ⟨{ id := 3, request := { id := "r".toList } }⟩).1 = .error e →
        p.2.status = .error) ∧
      ((∀ n, p.1.behavior n = .timeout ∨ ∃ e', p.1.behavior n = .exc e') →
        p.2.status = .error) := by
  refine validate_capture_one_result_per_applicable _ _ _ _ _ ?_
  intro inv hinv n r hr
  have happ : applicableSet
      ⟨[("a".toList, { id := "a".toList,
                       behavior := fun _ =>
                         .ok { invariant_id := "a".toList, capture_event_id := 3 } })]⟩
      (fun _ => 0) { id := 3, request := { id := "r".toList } } none =
      [{ id := "a".toList,
          behavior := fun _ =>
            .ok { invariant_id := "a".toList, capture_event_id := 3 } }] := by
    with_unfolding_all rfl
  rw [happ] at hinv
  simp only [List.mem_cons, List.not_mem_nil, or_false] at hinv
  subst hinv
  injection hr with h
  rw [← h]

/-- A successful registry lookup returns the invariant stored under exactly
that id (in a well-formed registry, whose keys are the stored ids). -/
theorem registry_get_id (reg : InvariantRegistry)
    (hwf : ∀ p ∈ reg._invariants, p.1 = p.2.id)
    (id' : Str) (v : AbstractInvariant) (h : reg.get id' = some v) :
    v.id = id' ∧ ∃ p ∈ reg._invariants, p.2 = v := by
  unfold InvariantRegistry.get at h
  cases hf : reg._invariants.find? (fun p => p.1 == id') with
  | none => rw [hf] at h; cases h
  | some q =>
    rw [hf] at h
    simp only [Option.map_some'] at h
    cases h
    have hq := List.find?_some hf
    have hmem := List.mem_of_find?_eq_some hf
    simp only [beq_iff_eq] at hq
    exact ⟨by rw [← hwf q hmem, hq], q, hmem, rfl⟩

/-- Counting copies of a registered invariant after resolving a requested-id
list and filtering by `should_apply`: every occurrence of its id contributes
exactly one copy (no de-duplication anywhere). -/
theorem resolved_filter_count (reg : InvariantRegistry) (md5int : Str → Nat)
    (ctx : InvariantContext) (inv : AbstractInvariant)
    (q : AbstractInvariant → Bool)
    (hwf : ∀ p ∈ reg._invariants, p.1 = p.2.id)
    (hget : reg.get inv.id = some inv)
    (hq : q inv = true) :
    ∀ ids : List Str,
      ((ids.filterMap reg.get).filter q).countP (fun i => i.id == inv.id) =
        ids.count inv.id := by
  intro ids
  induction ids with
  | nil => rfl
  | cons id' t ih =>
    rw [List.count_cons]
    cases hid' : reg.get id' with
    | none =>
      have hne : ¬(id' == inv.id) = true := by
        simp only [beq_iff_eq]
        intro h
        rw [h, hget] at hid'
        cases hid'
      rw [List.filterMap_cons_none hid']
      simp [hne, ih]
    | some v =>
      rw [List.filterMap_cons_some hid']
      by_cases he : id' = inv.id
      · have hv : v = inv := by
          rw [he, hget] at hid'
          cases hid'
          rfl
        subst hv
        subst he
        rw [List.filter_cons_of_pos hq, List.countP_cons]
        simp [ih]
      · have hvne : (v.id == inv.id) = false := by
          have := (registry_get_id reg hwf id' v hid').1
          simp only [beq_eq_false_iff_ne, ne_eq, this]
          exact he
        by_cases hqv : q v = true
        · rw [List.filter_cons_of_pos hqv, List.countP_cons]
          simp [hvne, he, ih]
        · rw [List.filter_cons_of_neg (by simpa using hqv)]
          simp [he, ih]

/-- C10: if `invariant_ids` lists a registered, applicable invariant's id `k`
times, the resolved list contains that invariant `k` times, and the returned
result list contains exactly `k` results carrying that invariant id — nothing
de-duplicates repeated ids. -/
theorem validate_capture_duplicate_ids (reg : InvariantRegistry)
    (md5int : Str → Nat) (default_timeout_ms : Nat) (capture_event : CaptureEvent)
    (ids : List Str) (inv : AbstractInvariant) (k : Nat)
    (hwf : ∀ p ∈ reg._invariants, p.1 = p.2.id)
    (hget : reg.get inv.id = some inv)
    (happ : inv.should_apply md5int ⟨capture_event⟩ = true)
    (hidres : ∀ p ∈ reg._invariants, ∀ n r, p.2.behavior n = .ok r →
      r.invariant_id = p.2.id)
    (hcount : ids.count inv.id = k) (hk : 1 ≤ k) :
    (resolveInvariants reg (some ids)).countP (fun i => i.id == inv.id) = k ∧
    (applicableSet reg md5int capture_event (some ids)).countP
      (fun i => i.id == inv.id) = k ∧
    (validate_capture reg md5int default_timeout_ms capture_event
      (some ids)).countP (fun r => r.invariant_id == inv.id) = k := by
  have hne : ids ≠ [] := by
    intro h
    rw [h] at hcount
    simp at hcount
    omega
  have htruthy : listTruthy (some ids) = true := by
    unfold listTruthy
    simpa using hne
  have hres : resolveInvariants reg (some ids) = ids.filterMap reg.get := by
    unfold resolveInvariants
    rw [htruthy]
    rfl
  have happset : applicableSet reg md5int capture_event (some ids) =
      (ids.filterMap reg.get).filter
        (fun i => i.should_apply md5int ⟨capture_event⟩) := by
    unfold applicableSet
    rw [hres]
  refine ⟨?_, ?_, ?_⟩
  · rw [hres, ← List.filter_true (ids.filterMap reg.get)]
    rw [resolved_filter_count reg md5int ⟨capture_event⟩ inv _ hwf hget rfl ids]
    exact hcount
  · rw [happset,
      resolved_filter_count reg md5int ⟨capture_event⟩ inv _ hwf hget happ ids]
    exact hcount
  · have hv : validate_capture reg md5int default_timeout_ms capture_event (some ids) =
        (applicableSet reg md5int capture_event (some ids)).map
          (fun i =>
            match (_execute_single_invariant default_timeout_ms i ⟨capture_event⟩).1 with
            | .ok r => r
            | .error e => executionErrorResult i ⟨capture_event⟩ e) := rfl
    rw [hv, List.countP_map]
    have hcongr : ∀ i ∈ applicableSet reg md5int capture_event (some ids),
        (((fun r : ValidationResult => r.invariant_id == inv.id) ∘
          (fun i =>
            match (_execute_single_invariant default_timeout_ms i ⟨capture_event⟩).1 with
            | .ok r => r
            | .error e => executionErrorResult i ⟨capture_event⟩ e)) i = true ↔
        (i.id == inv.id) = true) := by
      intro i hi
      have hmem : ∃ p ∈ reg._invariants, p.2 = i := by
        rw [happset] at hi
        have hi' := List.mem_of_mem_filter hi
        obtain ⟨id', _, hgot⟩ := List.mem_filterMap.mp hi'
        exact (registry_get_id reg hwf id' i hgot).2
      obtain ⟨p, hp, hpi⟩ := hmem
      have hspec := (exec_processed_spec default_timeout_ms i ⟨capture_event⟩
        (by rw [← hpi]; exact hidres p hp)).1
      simp only [Function.comp]
      rw [hspec]
    rw [List.countP_congr hcongr,
      happset,
      resolved_filter_count reg md5int ⟨capture_event⟩ inv _ hwf hget happ ids]
    exact hcount

/-- Witness for C10: the id `"a"` requested twice yields two copies resolved,
two applicable, and two results carrying `"a"`. -/
theorem validate_capture_duplicate_ids_witness :
    (resolveInvariants
        ⟨[("a".toList, { id := "a".toList,
                         behavior := fun _ =>
                           .ok { invariant_id := "a".toList, capture_event_id := 3 } })]⟩
        (some ["a".toList, "a".toList])).countP
      (fun i => i.id == "a".toList) = 2 ∧
    (applicableSet
        ⟨[("a".toList, { id := "a".toList,
                         behavior := fun _ =>
                           .ok { invariant_id := "a".toList, capture_event_id := 3 } })]⟩
        (fun _ => 0) { id := 3, request := { id := "r".toList } }
        (some ["a".toList, "a".toList])).countP
      (fun i => i.id == "a".toList) = 2 ∧
    (validate_capture
        ⟨[("a".toList, { id := "a".toList,
                         behavior := fun _ =>
                           .ok { invariant_id := "a".toList, capture_event_id := 3 } })]⟩
        (fun _ => 0) 5000 { id := 3, request := { id := "r".toList } }
        (some ["a".toList, "a".toList])).countP
      (fun r => r.invariant_id == "a".toList) = 2 := by
  refine validate_capture_duplicate_ids _ _ _ _ _
    { id := "a".toList,
      behavior := fun _ => .ok { invariant_id := "a".toList, capture_event_id := 3 } }
    2 ?_ ?_ ?_ ?_ ?_ ?_
  · intro p hp
    simp only [List.mem_cons, List.not_mem_nil, or_false] at hp
    subst hp
    rfl
  · with_unfolding_all rfl
  · with_unfolding_all rfl
  · intro p hp n r hr
    simp only [List.mem_cons, List.not_mem_nil, or_false] at hp
    subst hp
    injection hr with h
    rw [← h]
  · rfl
  · omega

/-- The midpoint distribution of the JS computation is symmetric in its two
arguments. -/
theorem zip_avg_comm : ∀ (p q : List ℚ),
    (p.zip q).map (fun x => (x.1 + x.2) / 2) =
      (q.zip p).map (fun x => (x.1 + x.2) / 2) := by
  intro p
  induction p with
  | nil => intro q; cases q <;> rfl
  | cons a p ih =>
    intro q
    cases q with
    | nil => rfl
    | cons b q =>
      simp only [List.zip_cons_cons, List.map_cons, List.cons.injEq]
      exact ⟨by rw [add_comm], ih q⟩

/-- Zipping a list with itself pairs each element with itself. -/
theorem zip_self_eq : ∀ (l : List ℚ), l.zip l = l.map (fun a => (a, a)) := by
  intro l
  induction l with
  | nil => rfl
  | cons a t ih => simp only [List.zip_cons_cons, List.map_cons, ih]

/-- C8: the Jensen–Shannon divergence of the drift engine is symmetric,
`JS(A,B) = JS(B,A)` — exactly, for every model `flog` of `log` — and the KL
divergence of a sample set against itself is 0 (identical histograms give
identical smoothed distributions, and `log 1 = 0`). -/
theorem js_symmetric_kl_self_zero (flog : ℚ → ℚ) (A B : List ℚ) :
    _calculate_js_divergence flog A B = _calculate_js_divergence flog B A ∧
    (flog 1 = 0 → _calculate_kl_divergence flog A A = 0) := by
  constructor
  · unfold _calculate_js_divergence
    dsimp only
    rw [min_comm (listMin B) (listMin A), max_comm (listMax B) (listMax A)]
    rw [zip_avg_comm
      (smoothProbs
        (histogram B 20
          (outerLo (min (listMin A) (listMin B)) (max (listMax A) (listMax B)))
          (outerHi (min (listMin A) (listMin B)) (max (listMax A) (listMax B)))) 20)
      (smoothProbs
        (histogram A 20
          (outerLo (min (listMin A) (listMin B)) (max (listMax A) (listMax B)))
          (outerHi (min (listMin A) (listMin B)) (max (listMax A) (listMax B)))) 20)]
    ring
  · intro hlog
    unfold _calculate_kl_divergence scipyEntropy
    dsimp only
    rw [zip_self_eq, List.map_map]
    apply List.sum_eq_zero
    intro x hx
    obtain ⟨a, _, rfl⟩ := List.mem_map.mp hx
    simp only [Function.comp]
    by_cases ha : a = 0
    · rw [ha, zero_mul]
    · rw [div_self ha, hlog, mul_zero]

/-- Witness for C8 at concrete sample sets and the zero model of `log`. -/
theorem js_symmetric_kl_self_zero_witness :
    (fun _ : ℚ => (0 : ℚ)) 1 = 0 ∧
    _calculate_js_divergence (fun _ => 0) [0] [1] =
      _calculate_js_divergence (fun _ => 0) [1] [0] ∧
    _calculate_kl_divergence (fun _ => 0) [0] [0] = 0 :=
  ⟨rfl, (js_symmetric_kl_self_zero (fun _ => 0) [0] [1]).1,
    (js_symmetric_kl_self_zero (fun _ => 0) [0] [0]).2 rfl⟩

/-- Every string reported by the scanner satisfies any property that the
position matcher guarantees for reported matches. -/
theorem scanWith_mem_prop (matchAt : MatchAt) (P : Str → Prop)
    (h : ∀ prev t rep p' rem, matchAt prev t = some (rep, p', rem) → P rep) :
    ∀ fuel prev t m, m ∈ scanWith matchAt fuel prev t → P m := by
  intro fuel
  induction fuel with
  | zero =>
    intro prev t m hm
    cases t with
    | nil => simp [scanWith] at hm
    | cons c rest => simp [scanWith] at hm
  | succ fuel ih =>
    intro prev t m hm
    cases t with
    | nil => cases hm
    | cons c rest =>
      unfold scanWith at hm
      cases hma : matchAt prev (c :: rest) with
      | none =>
        rw [hma] at hm
        exact ih _ _ _ hm
      | some trip =>
        obtain ⟨rep, p', rem⟩ := trip
        rw [hma] at hm
        dsimp only at hm
        by_cases hlen : rem.length < rest.length + 1
        · rw [if_pos hlen] at hm
          rcases List.mem_cons.mp hm with rfl | hm'
          · exact h prev (c :: rest) m p' rem hma
          · exact ih _ _ _ hm'
        · rw [if_neg hlen] at hm
          exact ih _ _ _ hm

/-- The SSN matcher only reports strings of the SSN shape. -/
theorem ssnMatchAt_shape (prev : Option Char) (t rep : Str) (p' : Option Char)
    (rem : Str) (h : ssnMatchAt prev t = some (rep, p', rem)) :
    ssnShape rep = true := by
  unfold ssnMatchAt at h
  dsimp only at h
  split at h
  · rename_i hcond
    cases h
    simp only [Bool.and_eq_true] at hcond
    exact hcond.1.2
  · cases h

/-- Every SSN-pattern match has the SSN shape. -/
theorem ssnFindall_shape (t m : Str) (hm : m ∈ ssnFindall t) : ssnShape m = true :=
  scanWith_mem_prop ssnMatchAt (fun s => ssnShape s = true)
    (fun _ _ _ _ _ h => ssnMatchAt_shape _ _ _ _ _ h) t.length none t m hm

/-- A digit character is not a dash. -/
theorem digit_ne_dash {c : Char} (h : c.isDigit = true) : c ≠ '-' := by
  intro he
  subst he
  exact absurd h (by decide)

/-- The redaction of an SSN-shaped match contains no dash (it keeps the two
leading and two trailing digits and masks everything else). -/
theorem ssnShape_redact_no_dash (m : Str) (hs : ssnShape m = true) :
    ∀ c ∈ _redact m, c ≠ '-' := by
  rcases m with _ | ⟨x0, m⟩; · simp [ssnShape] at hs
  rcases m with _ | ⟨x1, m⟩; · simp [ssnShape] at hs
  rcases m with _ | ⟨x2, m⟩; · simp [ssnShape] at hs
  rcases m with _ | ⟨x3, m⟩; · simp [ssnShape] at hs
  rcases m with _ | ⟨x4, m⟩; · simp [ssnShape] at hs
  rcases m with _ | ⟨x5, m⟩; · simp [ssnShape] at hs
  rcases m with _ | ⟨x6, m⟩; · simp [ssnShape] at hs
  rcases m with _ | ⟨x7, m⟩; · simp [ssnShape] at hs
  rcases m with _ | ⟨x8, m⟩; · simp [ssnShape] at hs
  rcases m with _ | ⟨x9, m⟩; · simp [ssnShape] at hs
  rcases m with _ | ⟨x10, m⟩; · simp [ssnShape] at hs
  rcases m with _ | ⟨x11, m⟩
  · simp only [ssnShape, Bool.and_eq_true] at hs
    obtain ⟨⟨⟨⟨⟨⟨⟨⟨⟨⟨h0, h1⟩, h2⟩, h3⟩, h4⟩, h5⟩, h6⟩, h7⟩, h8⟩, h9⟩, h10⟩ := hs
    have hred : _redact [x0, x1, x2, x3, x4, x5, x6, x7, x8, x9, x10] =
        [x0, x1, '*', '*', '*', x9, x10] := rfl
    rw [hred]
    intro c hc
    simp only [List.mem_cons, List.not_mem_nil, or_false] at hc
    rcases hc with rfl | rfl | rfl | rfl | rfl | rfl | rfl
    · exact digit_ne_dash h0
    · exact digit_ne_dash h1
    · decide
    · decide
    · decide
    · exact digit_ne_dash h9
    · exact digit_ne_dash h10
  · simp [ssnShape] at hs

/-- A base-10 digit character is never a dash. -/
theorem digitChar_mod10_ne_dash (n : Nat) : Nat.digitChar (n % 10) ≠ '-' := by
  have h : n % 10 < 10 := Nat.mod_lt _ (by omega)
  set k := n % 10 with hk
  interval_cases k <;> decide

/-- `Nat.toDigitsCore` only prepends digit characters to its accumulator. -/
theorem toDigitsCore_no_dash : ∀ (fuel n : Nat) (acc : List Char),
    (∀ c ∈ acc, c ≠ '-') → ∀ c ∈ Nat.toDigitsCore 10 fuel n acc, c ≠ '-' := by
  intro fuel
  induction fuel with
  | zero =>
    intro n acc hacc c hc
    exact hacc c hc
  | succ fuel ih =>
    intro n acc hacc c hc
    unfold Nat.toDigitsCore at hc
    dsimp only at hc
    split at hc
    · rcases List.mem_cons.mp hc with rfl | hc'
      · exact digitChar_mod10_ne_dash _
      · exact hacc c hc'
    · refine ih _ _ ?_ c hc
      intro c' hc'
      rcases List.mem_cons.mp hc' with rfl | hc''
      · exact digitChar_mod10_ne_dash _
      · exact hacc c' hc''

/-- The decimal rendering of a natural number contains no dash. -/
theorem natRepr_no_dash (n : Nat) : ∀ c ∈ (toString n).toList, c ≠ '-' := by
  intro c hc
  have : (toString n).toList = Nat.toDigitsCore 10 (n + 1) n [] := rfl
  rw [this] at hc
  exact toDigitsCore_no_dash (n + 1) n [] (by intro c' hc'; cases hc') c hc

/-- Unfolding `List.intercalate` over two or more parts. -/
theorem intercalate_cons_cons (sep a b : Str) (t : List Str) :
    List.intercalate sep (a :: b :: t) = a ++ sep ++ List.intercalate sep (b :: t) := by
  simp [List.intercalate, List.intersperse]

/-- Every part is a contiguous substring of the intercalation. -/
theorem part_infix_intercalate (sep : Str) :
    ∀ (parts : List Str) (x : Str), x ∈ parts → x <:+: List.intercalate sep parts := by
  intro parts
  induction parts with
  | nil =>
    intro x hx
    cases hx
  | cons a t ih =>
    intro x hx
    rcases List.mem_cons.mp hx with rfl | hx'
    · cases t with
      | nil =>
        rw [show List.intercalate sep [x] = x by simp [List.intercalate, List.intersperse]]
      | cons b t' =>
        rw [intercalate_cons_cons]
        rw [List.append_assoc]
        exact List.IsPrefix.isInfix (List.prefix_append x _)
    · cases t with
      | nil => cases hx'
      | cons b t' =>
        rw [intercalate_cons_cons]
        refine List.IsInfix.trans (ih x hx') ?_
        exact List.IsSuffix.isInfix (List.suffix_append _ _)

/-- Characters of an intercalation come from the separator or from a part. -/
theorem mem_intercalate_cases (sep : Str) :
    ∀ (parts : List Str) (c : Char), c ∈ List.intercalate sep parts →
      c ∈ sep ∨ ∃ p ∈ parts, c ∈ p := by
  intro parts
  induction parts with
  | nil =>
    intro c hc
    simp [List.intercalate, List.intersperse] at hc
  | cons a t ih =>
    intro c hc
    cases t with
    | nil =>
      rw [show List.intercalate sep [a] = a by simp [List.intercalate, List.intersperse]] at hc
      exact .inr ⟨a, List.mem_cons_self _ _, hc⟩
    | cons b t' =>
      rw [intercalate_cons_cons] at hc
      rcases List.mem_append.mp hc with hc' | hc'
      · rcases List.mem_append.mp hc' with hc'' | hc''
        · exact .inr ⟨a, List.mem_cons_self _ _, hc''⟩
        · exact .inl hc''
      · rcases ih c hc' with h | ⟨p, hp, hcp⟩
        · exact .inl h
        · exact .inr ⟨p, List.mem_cons_of_mem _ hp, hcp⟩

/-- C6 (amended): whenever the SSN pattern's scan of the response text yields
`123-45-6789` among its first three matches (in particular, a standalone
word-boundary-delimited occurrence with at most two earlier SSN matches), the
PII invariant fails and its evidence carries the redacted form `12***89`, and
that evidence text never contains the raw SSN. -/
theorem piiValidate_ssn_redacted (config : InvariantConfig) (exec_ms : Nat)
    (context : InvariantContext)
    (h : "123-45-6789".toList ∈ (ssnFindall context.response.text).take 3) :
    (piiValidate config exec_ms context).status = .failed ∧
    ∃ ev ∈ (piiValidate config exec_ms context).evidence, ∃ s,
      ev.extracted_text = some s ∧ ("12***89".toList <:+: s) ∧
      ¬("123-45-6789".toList <:+: s) := by
  have hraw : "123-45-6789".toList ∈ ssnFindall context.response.text :=
    List.mem_of_mem_take h
  have hms : (ssnFindall context.response.text).isEmpty = false := by
    cases hmm : ssnFindall context.response.text with
    | nil => rw [hmm] at hraw; cases hraw
    | cons a l => rfl
  have hdet : piiEvidence "ssn".toList (ssnFindall context.response.text) ∈
      piiPATTERNS.filterMap (fun p =>
        if (p.2 context.response.text).isEmpty = true then none
        else some (piiEvidence p.1 (p.2 context.response.text))) := by
    refine List.mem_filterMap.mpr ⟨("ssn".toList, ssnFindall), by simp [piiPATTERNS], ?_⟩
    dsimp only
    rw [hms]
    rfl
  have hne : (!(piiPATTERNS.filterMap (fun p =>
      if (p.2 context.response.text).isEmpty = true then none
      else some (piiEvidence p.1 (p.2 context.response.text)))).isEmpty) = true := by
    cases hdd : piiPATTERNS.filterMap (fun p =>
        if (p.2 context.response.text).isEmpty = true then none
        else some (piiEvidence p.1 (p.2 context.response.text))) with
    | nil => rw [hdd] at hdet; cases hdet
    | cons a l => rfl
  unfold piiValidate
  dsimp only
  split
  · constructor
    · rfl
    · refine ⟨piiEvidence "ssn".toList (ssnFindall context.response.text), hdet, ?_⟩
      refine ⟨(toString (ssnFindall context.response.text).length).toList
        ++ " instance(s): ".toList
        ++ List.intercalate ", ".toList
          (((ssnFindall context.response.text).map _redact).take 3), rfl, ?_, ?_⟩
      · -- the redacted SSN appears in the joined sample
        have h2 : "12***89".toList ∈
            (((ssnFindall context.response.text).map _redact).take 3) := by
          rw [← List.map_take]
          exact List.mem_map.mpr ⟨"123-45-6789".toList, h, rfl⟩
        have h3 := part_infix_intercalate ", ".toList _ _ h2
        exact List.IsInfix.trans h3 (List.IsSuffix.isInfix (List.suffix_append _ _))
      · -- the raw SSN (which contains a dash) cannot appear: no dash anywhere
        intro hinf
        have hdash : '-' ∈ (toString (ssnFindall context.response.text).length).toList
            ++ " instance(s): ".toList
            ++ List.intercalate ", ".toList
              (((ssnFindall context.response.text).map _redact).take 3) :=
          List.Sublist.subset (List.IsInfix.sublist hinf) (by decide)
        rw [List.append_assoc] at hdash
        rcases List.mem_append.mp hdash with hc | hc
        · exact natRepr_no_dash _ '-' hc rfl
        · rcases List.mem_append.mp hc with hc' | hc'
          · exact absurd hc' (by decide)
          · rcases mem_intercalate_cases _ _ _ hc' with hsep | ⟨p, hp, hcp⟩
            · exact absurd hsep (by decide)
            · rw [← List.map_take] at hp
              obtain ⟨mm, hmm, rfl⟩ := List.mem_map.mp hp
              exact ssnShape_redact_no_dash mm
                (ssnFindall_shape _ _ (List.mem_of_mem_take hmm)) '-' hcp rfl
  · rename_i hcond
    exact absurd hne hcond

/-- C6 counterexample: the response text `x123-45-6789` contains the raw SSN
as a substring, yet the PII invariant PASSES — the SSN regex requires a word
boundary, and `x` adjacent to `1` suppresses it (no other pattern matches
either). -/
theorem pii_substring_without_boundary_passes :
    ("123-45-6789".toList <:+: "x123-45-6789".toList) ∧
    (piiValidate {} 0 ⟨{ id := 0, request := { id := "r".toList },
                          response := { text := "x123-45-6789".toList } }⟩).status
      = .passed := by
  constructor
  · exact ⟨['x'], [], by decide⟩
  · with_unfolding_all rfl

/-- Witness for C6's amended statement on a standalone SSN occurrence. -/
theorem piiValidate_ssn_redacted_witness :
    ("123-45-6789".toList ∈
      (ssnFindall "My SSN is 123-45-6789.".toList).take 3) ∧
    ((piiValidate {} 0 ⟨{ id := 0, request := { id := "r".toList },
                           response := { text := "My SSN is 123-45-6789.".toList } }⟩).status
        = .failed ∧
    ∃ ev ∈ (piiValidate {} 0 ⟨{ id := 0, request := { id := "r".toList },
                                response := { text := "My SSN is 123-45-6789.".toList } }⟩).evidence,
      ∃ s,
      ev.extracted_text = some s ∧ ("12***89".toList <:+: s) ∧
      ¬("123-45-6789".toList <:+: s)) :=
  ⟨by decide, piiValidate_ssn_redacted {} 0
    ⟨{ id := 0, request := { id := "r".toList },
       response := { text := "My SSN is 123-45-6789.".toList } }⟩ (by decide)⟩
